import Mathlib

namespace Rag

/-!
Verification of the personal-rag ingestion/retrieval core.

This file shallowly embeds the pure content of `src/chunking.py`,
`src/embeddings.py`, `src/ingestion.py`, `src/models.py` and
`src/retrieval.py`.  External collaborators (the tiktoken tokenizer, the
langchain text splitter, the OpenAI embedding endpoint, the ChromaDB
collection) are modelled as explicit function parameters; stateful code is
written as explicit state passing; Python exceptions become `Except`
values; Python `datetime` objects become an explicit record with the
timezone offset in minutes.
-/

/-! ## Decimal digit rendering and parsing

Helpers used to model Python's `datetime.isoformat` (zero-padded decimal
fields) and `datetime.fromisoformat`. -/

/-- The decimal digit character for `d % 10`-style values (code point
48 + d). -/
def digitChar (d : Nat) : Char := Char.ofNat (48 + d % 10)

/-- Numeric value of a decimal digit character, `none` on anything else. -/
def digitVal (c : Char) : Option Nat :=
  if 48 <= c.toNat && c.toNat <= 57 then some (c.toNat - 48) else none

/-- `n` rendered as exactly `k` decimal digits, zero padded (Python `%0kd`). -/
def padDigits : Nat → Nat → List Char
  | 0, _ => []
  | k + 1, n => padDigits k (n / 10) ++ [digitChar (n % 10)]

/-- Left-to-right accumulation of decimal digits; `none` on a non-digit. -/
def parseDigitsAux : List Char → Nat → Option Nat
  | [], acc => some acc
  | c :: cs, acc =>
    match digitVal c with
    | none => none
    | some d => parseDigitsAux cs (10 * acc + d)

/-- Read exactly `k` decimal digits from the front of `cs`, returning the
value and the rest of the input. -/
def parseFixed (k : Nat) (cs : List Char) : Option (Nat × List Char) :=
  if k ≤ cs.length then
    match parseDigitsAux (cs.take k) 0 with
    | none => none
    | some n => some (n, cs.drop k)
  else none

/-! ## Python `datetime` model

`datetime.datetime` values as used by the repository: naive or fixed-offset
aware timestamps (offsets in whole minutes, which is what
`datetime.timezone` instances produced by `timezone.utc` and by
`fromisoformat` of the strings this program writes always carry). -/

/-- A Python `datetime.datetime`: calendar fields plus an optional
UTC offset in minutes (`none` = naive). -/
structure PyDateTime where
  year : Nat
  month : Nat
  day : Nat
  hour : Nat
  minute : Nat
  second : Nat
  microsecond : Nat
  tzOffsetMinutes : Option Int
deriving DecidableEq, Repr

/-- The `.ffffff` part of `isoformat`: present exactly when the
microsecond field is nonzero. -/
def fracChars (us : Nat) : List Char :=
  if us = 0 then [] else '.' :: padDigits 6 us

/-- The `±HH:MM` part of `isoformat`: present exactly when aware. -/
def tzChars (o : Option Int) : List Char :=
  match o with
  | none => []
  | some o =>
    (if 0 ≤ o then '+' else '-') ::
      (padDigits 2 (o.natAbs / 60) ++ (':' :: padDigits 2 (o.natAbs % 60)))

/-- `datetime.isoformat()`: `YYYY-MM-DDTHH:MM:SS`, then `.ffffff` when the
microsecond field is nonzero, then `+HH:MM`/`-HH:MM` when aware. -/
def isoChars (dt : PyDateTime) : List Char :=
  padDigits 4 dt.year ++ ('-' ::
    (padDigits 2 dt.month ++ ('-' ::
      (padDigits 2 dt.day ++ ('T' ::
        (padDigits 2 dt.hour ++ (':' ::
          (padDigits 2 dt.minute ++ (':' ::
            (padDigits 2 dt.second ++
              (fracChars dt.microsecond ++ tzChars dt.tzOffsetMinutes)))))))))))

/-- `datetime.isoformat()` as a string. -/
def isoformat (dt : PyDateTime) : String := String.mk (isoChars dt)

/-- Consume one expected character. -/
def expectChar (c : Char) : List Char → Option (List Char)
  | [] => none
  | c2 :: rest => if c2 = c then some rest else none

/-- Optional `.ffffff` fractional-second part. -/
def parseFrac : List Char → Option (Nat × List Char)
  | [] => some (0, [])
  | c :: rest => if c = '.' then parseFixed 6 rest else some (0, c :: rest)

/-- `HH:MM` at end of input, as total minutes. -/
def parseTzTail (cs : List Char) : Option Nat :=
  (parseFixed 2 cs).bind fun p =>
    (expectChar ':' p.2).bind fun cs2 =>
      (parseFixed 2 cs2).bind fun q =>
        if q.2 = [] then some (p.1 * 60 + q.1) else none

/-- Optional signed `±HH:MM` offset at end of input. -/
def parseTz : List Char → Option (Option Int)
  | [] => some none
  | c :: rest =>
    if c = '+' then (parseTzTail rest).map fun m => some (m : Int)
    else if c = '-' then (parseTzTail rest).map fun m => some (-(m : Int))
    else none

/-- Parse the character form written by `isoChars`. -/
def parseDateTimeChars (cs : List Char) : Option PyDateTime :=
  (parseFixed 4 cs).bind fun py =>
  (expectChar '-' py.2).bind fun cs1 =>
  (parseFixed 2 cs1).bind fun pmo =>
  (expectChar '-' pmo.2).bind fun cs2 =>
  (parseFixed 2 cs2).bind fun pd =>
  (expectChar 'T' pd.2).bind fun cs3 =>
  (parseFixed 2 cs3).bind fun ph =>
  (expectChar ':' ph.2).bind fun cs4 =>
  (parseFixed 2 cs4).bind fun pmi =>
  (expectChar ':' pmi.2).bind fun cs5 =>
  (parseFixed 2 cs5).bind fun ps =>
  (parseFrac ps.2).bind fun pus =>
  (parseTz pus.2).map fun tz =>
  ⟨py.1, pmo.1, pd.1, ph.1, pmi.1, ps.1, pus.1, tz⟩

/-- `datetime.fromisoformat`, restricted to the exact textual form that
`isoformat` above emits (the only form this program ever writes). -/
def fromisoformat (s : String) : Option PyDateTime := parseDateTimeChars s.data

/-- Offset bound for `datetime.timezone` instances (strictly under 24
hours, and in whole minutes in this model). -/
def tzOk : Option Int → Prop
  | none => True
  | some o => o.natAbs < 1440

instance : DecidablePred tzOk := fun t =>
  match t with
  | none => isTrue trivial
  | some o => inferInstanceAs (Decidable (o.natAbs < 1440))

/-- Field ranges Python `datetime` enforces (offsets restricted to whole
minutes under 24 hours, as produced by `datetime.timezone`). -/
def PyDateTime.Valid (dt : PyDateTime) : Prop :=
  1 ≤ dt.year ∧ dt.year ≤ 9999 ∧ 1 ≤ dt.month ∧ dt.month ≤ 12 ∧
  1 ≤ dt.day ∧ dt.day ≤ 31 ∧ dt.hour < 24 ∧ dt.minute < 60 ∧
  dt.second < 60 ∧ dt.microsecond < 1000000 ∧ tzOk dt.tzOffsetMinutes

instance (dt : PyDateTime) : Decidable dt.Valid := by
  unfold PyDateTime.Valid
  infer_instance

/-! ## MD5 (`hashlib.md5`)

A byte-level implementation of MD5, used by the repository for
deterministic chunk IDs (`hashlib.md5(source.encode()).hexdigest()[:8]`).
Bytes and 32-bit words are `Nat`s reduced mod `2^8` / `2^32` explicitly. -/

/-- UTF-8 encoding of one character (Python `str.encode()`). -/
def utf8Bytes (c : Char) : List Nat :=
  let n := c.toNat
  if n < 128 then [n]
  else if n < 2048 then
    [192 + n / 64, 128 + n % 64]
  else if n < 65536 then
    [224 + n / 4096, 128 + n / 64 % 64, 128 + n % 64]
  else
    [240 + n / 262144, 128 + n / 4096 % 64, 128 + n / 64 % 64, 128 + n % 64]

/-- UTF-8 bytes of a string (Python `source.encode()`). -/
def strBytes (s : String) : List Nat := (s.data.map utf8Bytes).flatten

/-- Per-round additive constants `floor(abs(sin(i+1)) * 2^32)`. -/
def md5K : List Nat :=
  [3614090360, 3905402710, 606105819, 3250441966, 4118548399, 1200080426,
   2821735955, 4249261313, 1770035416, 2336552879, 4294925233, 2304563134,
   1804603682, 4254626195, 2792965006, 1236535329, 4129170786, 3225465664,
   643717713, 3921069994, 3593408605, 38016083, 3634488961, 3889429448,
   568446438, 3275163606, 4107603335, 1163531501, 2850285829, 4243563512,
   1735328473, 2368359562, 4294588738, 2272392833, 1839030562, 4259657740,
   2763975236, 1272893353, 4139469664, 3200236656, 681279174, 3936430074,
   3572445317, 76029189, 3654602809, 3873151461, 530742520, 3299628645,
   4096336452, 1126891415, 2878612391, 4237533241, 1700485571, 2399980690,
   4293915773, 2240044497, 1873313359, 4264355552, 2734768916, 1309151649,
   4149444226, 3174756917, 718787259, 3951481745]

/-- Per-round left-rotation amounts. -/
def md5S : List Nat :=
  [7, 12, 17, 22, 7, 12, 17, 22, 7, 12, 17, 22, 7, 12, 17, 22,
   5, 9, 14, 20, 5, 9, 14, 20, 5, 9, 14, 20, 5, 9, 14, 20,
   4, 11, 16, 23, 4, 11, 16, 23, 4, 11, 16, 23, 4, 11, 16, 23,
   6, 10, 15, 21, 6, 10, 15, 21, 6, 10, 15, 21, 6, 10, 15, 21]

/-- 32-bit left rotation. -/
def rotl32 (x s : Nat) : Nat :=
  ((x <<< s) ||| (x >>> (32 - s))) % 4294967296

/-- The nonlinear mixing function for round `i` applied to `(b, c, d)`. -/
def md5Mix (i b c d : Nat) : Nat :=
  if i < 16 then (b &&& c) ||| ((b ^^^ 4294967295) &&& d)
  else if i < 32 then (d &&& b) ||| ((d ^^^ 4294967295) &&& c)
  else if i < 48 then b ^^^ c ^^^ d
  else c ^^^ (b ||| (d ^^^ 4294967295))

/-- Message-word index used in round `i`. -/
def md5Idx (i : Nat) : Nat :=
  if i < 16 then i
  else if i < 32 then (5 * i + 1) % 16
  else if i < 48 then (3 * i + 5) % 16
  else (7 * i) % 16

/-- Little-endian 32-bit word at word offset `g` of a 64-byte block. -/
def wordAt (blk : List Nat) (g : Nat) : Nat :=
  blk.getD (4 * g) 0 + 256 * blk.getD (4 * g + 1) 0 +
    65536 * blk.getD (4 * g + 2) 0 + 16777216 * blk.getD (4 * g + 3) 0

/-- One MD5 round. -/
def md5Round (blk : List Nat) (st : Nat × Nat × Nat × Nat) (i : Nat) :
    Nat × Nat × Nat × Nat :=
  let (a, b, c, d) := st
  let f := (a + md5Mix i b c d + md5K.getD i 0 + wordAt blk (md5Idx i)) % 4294967296
  (d, (b + rotl32 f (md5S.getD i 0)) % 4294967296, b, c)

/-- Process one 64-byte block, updating the running state. -/
def md5Block (st : Nat × Nat × Nat × Nat) (blk : List Nat) :
    Nat × Nat × Nat × Nat :=
  let (a0, b0, c0, d0) := st
  let (a, b, c, d) := (List.range 64).foldl (md5Round blk) (a0, b0, c0, d0)
  ((a0 + a) % 4294967296, (b0 + b) % 4294967296,
   (c0 + c) % 4294967296, (d0 + d) % 4294967296)

/-- MD5 padding: `0x80`, zeros to 56 mod 64, then the 64-bit little-endian
bit length. -/
def md5Pad (msg : List Nat) : List Nat :=
  let ml := msg.length
  let r := (ml + 1) % 64
  let zeros := if r ≤ 56 then 56 - r else 120 - r
  msg ++ [128] ++ List.replicate zeros 0 ++
    (List.range 8).map fun i => (((ml * 8) % 18446744073709551616) >>> (8 * i)) % 256

/-- Split a (padded) message into 64-byte blocks; `fuel` bounds recursion. -/
def md5Split : Nat → List Nat → List (List Nat)
  | 0, _ => []
  | _ + 1, [] => []
  | fuel + 1, l => l.take 64 :: md5Split fuel (l.drop 64)

/-- Serialize a 32-bit word little-endian. -/
def wordLE (w : Nat) : List Nat :=
  [w % 256, w / 256 % 256, w / 65536 % 256, w / 16777216 % 256]

/-- The 16-byte MD5 digest of a byte sequence. -/
def md5Bytes (msg : List Nat) : List Nat :=
  let padded := md5Pad msg
  let blocks := md5Split padded.length padded
  let (a, b, c, d) :=
    blocks.foldl md5Block (1732584193, 4023233417, 2562383102, 271733878)
  wordLE a ++ wordLE b ++ wordLE c ++ wordLE d

/-- Lowercase hexadecimal digit characters: 0-9 then a-f. -/
def hexChar (d : Nat) : Char :=
  if d < 10 then Char.ofNat (48 + d) else Char.ofNat (87 + d % 16)

/-- Two hex characters of one byte. -/
def byteHex (b : Nat) : List Char := [hexChar (b / 16), hexChar (b % 16)]

/-- `hashlib.md5(s.encode()).hexdigest()` as a character list. -/
def md5HexChars (s : String) : List Char :=
  ((md5Bytes (strBytes s)).map byteHex).flatten

/-! ## Calendar arithmetic and datetime comparison

Python compares two aware datetimes by UTC instant.  `_should_skip`
normalizes both sides with `replace(tzinfo=timezone.utc)` when naive and
then compares. -/

/-- Days since 1970-01-01 of a civil date (proleptic Gregorian). -/
def daysFromCivil (y m d : Nat) : Int :=
  let yAdj := y - (if m ≤ 2 then 1 else 0)
  let era := yAdj / 400
  let yoe := yAdj - era * 400
  let mp := if 2 < m then m - 3 else m + 9
  let doy := (153 * mp + 2) / 5 + d - 1
  let doe := yoe * 365 + yoe / 4 - yoe / 100 + doy
  (era * 146097 + doe : Int) - 719468

/-- Microseconds since the epoch of the naive (wall-clock) fields. -/
def naiveEpochMicros (dt : PyDateTime) : Int :=
  (daysFromCivil dt.year dt.month dt.day * 86400 +
    (dt.hour * 3600 + dt.minute * 60 + dt.second : Nat)) * 1000000 +
    dt.microsecond

/-- The UTC instant of a datetime, treating naive values as UTC (the
comparison in `_should_skip` only runs after normalization). -/
def pyInstantMicros (dt : PyDateTime) : Int :=
  naiveEpochMicros dt - (dt.tzOffsetMinutes.getD 0) * 60000000

/-- `x.replace(tzinfo=timezone.utc) if x.tzinfo is None else x`. -/
def replaceUtcIfNaive (dt : PyDateTime) : PyDateTime :=
  { dt with tzOffsetMinutes := some (dt.tzOffsetMinutes.getD 0) }

/-! ## Data model (`src/models.py`) -/

inductive SourceType
  | local
  | gdrive
  | email
  | slack
deriving DecidableEq, Repr

/-- The enum's canonical string value. -/
def SourceType.value : SourceType → String
  | .local => "local"
  | .gdrive => "gdrive"
  | .email => "email"
  | .slack => "slack"

/-- `SourceType(str)`: `none` models the `ValueError` on unknown values. -/
def SourceType.fromValue (v : String) : Option SourceType :=
  if v = "local" then some .local
  else if v = "gdrive" then some .gdrive
  else if v = "email" then some .email
  else if v = "slack" then some .slack
  else none

/-- `DocumentMetadata` (the open-ended `additional` map is omitted: no
embedded operation reads it). -/
structure DocumentMetadata where
  source : String
  source_type : SourceType
  title : Option String := none
  author : Option String := none
  created_at : Option PyDateTime := none
  modified_at : Option PyDateTime := none
  file_type : Option String := none
  file_size : Option Nat := none
  url : Option String := none
deriving DecidableEq, Repr

structure Document where
  content : String
  metadata : DocumentMetadata
deriving DecidableEq, Repr

structure ChunkMetadata where
  source : String
  source_type : SourceType
  chunk_index : Nat
  total_chunks : Nat
  title : Option String := none
  author : Option String := none
  created_at : Option PyDateTime := none
  modified_at : Option PyDateTime := none
  file_type : Option String := none
  url : Option String := none
  ingested_at : PyDateTime
deriving DecidableEq, Repr

/-- A value of a ChromaDB metadata map: string, integer, or an explicit
null (which the store's contract rejects). -/
inductive MVal
  | s (v : String)
  | i (v : Int)
  | null
deriving DecidableEq, Repr

/-- A metadata map as passed to / returned from ChromaDB. -/
abbrev MetaDict := List (String × MVal)

/-- One optional string entry of `to_dict`: dropped entirely when `none`. -/
def optEntryS (k : String) (v : Option String) : MetaDict :=
  match v with
  | none => []
  | some v => [(k, .s v)]

/-- One optional datetime entry of `to_dict`: dropped when `none`,
serialized with `isoformat` otherwise. -/
def optEntryDT (k : String) (v : Option PyDateTime) : MetaDict :=
  match v with
  | none => []
  | some dt => [(k, .s (isoformat dt))]

/-- `ChunkMetadata.to_dict`: `model_dump`, delete `None` values, datetimes
to ISO strings, enum to its string value. -/
def ChunkMetadata.to_dict (m : ChunkMetadata) : MetaDict :=
  [("source", .s m.source), ("source_type", .s m.source_type.value),
   ("chunk_index", .i m.chunk_index), ("total_chunks", .i m.total_chunks)] ++
  optEntryS "title" m.title ++ optEntryS "author" m.author ++
  optEntryDT "created_at" m.created_at ++ optEntryDT "modified_at" m.modified_at ++
  optEntryS "file_type" m.file_type ++ optEntryS "url" m.url ++
  [("ingested_at", .s (isoformat m.ingested_at))]

/-- A required string field of the stored map. -/
def getStr (d : MetaDict) (k : String) : Option String :=
  match d.lookup k with
  | some (.s v) => some v
  | _ => none

/-- A required non-negative integer field of the stored map. -/
def getNat (d : MetaDict) (k : String) : Option Nat :=
  match d.lookup k with
  | some (.i n) => if 0 ≤ n then some n.toNat else none
  | _ => none

/-- An optional string field: absent is fine, a non-string value fails
validation. -/
def optStrField (d : MetaDict) (k : String) : Option (Option String) :=
  match d.lookup k with
  | none => some none
  | some (.s v) => some (some v)
  | some _ => none

/-- An optional datetime field: absent is fine, a string is parsed with
`fromisoformat` (whose failure propagates out of `from_dict`); a
non-string stored value is modelled as a validation failure. -/
def optDTField (d : MetaDict) (k : String) : Option (Option PyDateTime) :=
  match d.lookup k with
  | none => some none
  | some (.s v) =>
    match fromisoformat v with
    | some dt => some (some dt)
    | none => none
  | some _ => none

/-- `ChunkMetadata.from_dict`: parse ISO timestamps back to datetimes, the
stored string back to the enum, and validate the required fields; `now` is
the `default_factory=datetime.now` value used when `ingested_at` is
absent. -/
def ChunkMetadata.from_dict (now : PyDateTime) (d : MetaDict) :
    Option ChunkMetadata :=
  (getStr d "source").bind fun src =>
  ((getStr d "source_type").bind SourceType.fromValue).bind fun st =>
  (getNat d "chunk_index").bind fun ci =>
  (getNat d "total_chunks").bind fun tc =>
  (optStrField d "title").bind fun title =>
  (optStrField d "author").bind fun author =>
  (optDTField d "created_at").bind fun created =>
  (optDTField d "modified_at").bind fun modified =>
  (optStrField d "file_type").bind fun ft =>
  (optStrField d "url").bind fun url =>
  (match d.lookup "ingested_at" with
   | none => some now
   | some (.s v) => fromisoformat v
   | some _ => none).map fun ing =>
  ⟨src, st, ci, tc, title, author, created, modified, ft, url, ing⟩

/-- A chunk with its metadata and optional embedding vector (floats are
modelled as exact rationals). -/
structure DocumentChunk where
  content : String
  metadata : ChunkMetadata
  embedding : Option (List ℚ) := none
deriving DecidableEq, Repr

/-- `IngestionStats` counters.  The wall-clock `processing_time` field is
not modelled (real time has no shallow embedding); no claim concerns it. -/
structure IngestionStats where
  total_documents : Nat := 0
  total_chunks : Nat := 0
  skipped_documents : Nat := 0
  failed_documents : Nat := 0
  failed_files : List String := []
deriving DecidableEq, Repr

/-! ## Chunking (`src/chunking.py`)

The langchain `RecursiveCharacterTextSplitter` is external; `split` is the
splitter-oracle parameter, `.error` modelling an internal splitter
exception (caught, producing an empty chunk list).  `now` is the
`datetime.now()` value used by `ChunkMetadata`'s `ingested_at` default. -/

/-- Python whitespace (ASCII model; `str.strip` also strips some unicode
whitespace, which no embedded operation depends on). -/
def isPySpace (c : Char) : Bool :=
  c == ' ' || c == '\t' || c == '\n' || c == '\r' || c == '\x0b' || c == '\x0c'

/-- Python `str.strip()`: drop leading and trailing whitespace. -/
def pyStrip (s : String) : String :=
  String.mk (((s.data.dropWhile isPySpace).reverse.dropWhile isPySpace).reverse)

/-- One chunk of `chunk_document`'s loop body: the indexed split text,
stripped, wrapped with the parent document's metadata. -/
def mkChunk (docMeta : DocumentMetadata) (total : Nat) (now : PyDateTime)
    (p : Nat × String) : DocumentChunk :=
  { content := pyStrip p.2
    metadata :=
      { source := docMeta.source
        source_type := docMeta.source_type
        chunk_index := p.1
        total_chunks := total
        title := docMeta.title
        author := docMeta.author
        created_at := docMeta.created_at
        modified_at := docMeta.modified_at
        file_type := docMeta.file_type
        url := docMeta.url
        ingested_at := now } }

/-- `DocumentChunker.chunk_document`. -/
def chunkDocument (split : String → Except Unit (List String)) (now : PyDateTime)
    (document : Document) : List DocumentChunk :=
  if (pyStrip document.content).isEmpty then []
  else
    match split document.content with
    | .error _ => []
    | .ok [] => []
    | .ok textChunks =>
      textChunks.enum.map (mkChunk document.metadata textChunks.length now)

/-- `DocumentChunker.chunk_documents`: concatenation in input order. -/
def chunkDocuments (split : String → Except Unit (List String))
    (now : PyDateTime) (documents : List Document) : List DocumentChunk :=
  (documents.map (chunkDocument split now)).flatten

/-! ## Chunker construction (`DocumentChunker.__init__`)

The only constraint enforcement at construction time lives in the
underlying langchain splitter: its base `TextSplitter.__init__` raises
`ValueError` when the configured overlap is strictly greater than the
configured chunk size, and accepts everything else.  The Python
`chunk_size or settings.chunk_size` idiom means an explicit `0` (falsy)
argument falls back to the configured default. -/

/-- The two chunking settings of `src/config.py` with their defaults. -/
structure ChunkerSettings where
  chunk_size : Nat := 512
  chunk_overlap : Nat := 50
deriving DecidableEq, Repr

/-- A constructed `DocumentChunker` with the splitter's character-unit
configuration (`tokens * 4`). -/
structure DocumentChunker where
  chunk_size : Nat
  chunk_overlap : Nat
  splitter_chunk_size : Nat
  splitter_chunk_overlap : Nat
deriving DecidableEq, Repr

/-- `DocumentChunker.__init__`; `.error` models the `ValueError` raised by
the langchain splitter's constructor when overlap exceeds size. -/
def mkDocumentChunker (chunk_size chunk_overlap : Option Nat)
    (settings : ChunkerSettings) : Except String DocumentChunker :=
  let size := match chunk_size with
    | some n => if n = 0 then settings.chunk_size else n
    | none => settings.chunk_size
  let ov := match chunk_overlap with
    | some n => if n = 0 then settings.chunk_overlap else n
    | none => settings.chunk_overlap
  let charSize := size * 4
  let charOv := ov * 4
  if charSize < charOv then
    .error "Got a larger chunk overlap than chunk size, should be smaller."
  else .ok ⟨size, ov, charSize, charOv⟩

/-! ## Embedding batcher (`src/embeddings.py`)

`E` is the provider oracle (one vector per input text, order preserving —
the `embed_documents` contract); `tok` is the tiktoken token counter. -/

/-- `MAX_TOKENS_PER_REQUEST` from `src/embeddings.py`. -/
def MAX_TOKENS_PER_REQUEST : Nat := 300000

/-- `embed_texts`: one provider call on a list of texts. -/
def embedTexts (E : String → List ℚ) (texts : List String) : List (List ℚ) :=
  texts.map E

/-- Attach the provider's vector to a chunk. -/
def setEmbedding (E : String → List ℚ) (c : DocumentChunk) : DocumentChunk :=
  { c with embedding := some (E c.content) }

/-- The greedy batch-accumulation loop of `embed_chunks`: close the
current batch when adding the next chunk would push the running token
total over the ceiling (and the batch is non-empty). -/
def makeBatchesGo (tok : String → Nat) :
    List DocumentChunk → List DocumentChunk → Nat → List (List DocumentChunk)
  | [], cur, _ => if cur.isEmpty then [] else [cur]
  | c :: rest, cur, curTok =>
    let t := tok c.content
    if MAX_TOKENS_PER_REQUEST < curTok + t ∧ cur ≠ [] then
      cur :: makeBatchesGo tok rest [c] t
    else
      makeBatchesGo tok rest (cur ++ [c]) (curTok + t)

/-- The batches `embed_chunks` forms when the total exceeds the ceiling. -/
def makeBatches (tok : String → Nat) (chunks : List DocumentChunk) :
    List (List DocumentChunk) :=
  makeBatchesGo tok chunks [] 0

/-- `EmbeddingService.embed_chunks`. -/
def embedChunks (E : String → List ℚ) (tok : String → Nat)
    (chunks : List DocumentChunk) : List DocumentChunk :=
  if chunks.isEmpty then []
  else
    let total := (chunks.map fun c => tok c.content).sum
    if total ≤ MAX_TOKENS_PER_REQUEST then chunks.map (setEmbedding E)
    else ((makeBatches tok chunks).map fun b => b.map (setEmbedding E)).flatten

/-- Number of underlying `embed_texts` provider calls `embed_chunks`
makes. -/
def embedCallCount (tok : String → Nat) (chunks : List DocumentChunk) : Nat :=
  if chunks.isEmpty then 0
  else
    let total := (chunks.map fun c => tok c.content).sum
    if total ≤ MAX_TOKENS_PER_REQUEST then 1
    else (makeBatches tok chunks).length

/-! ## Ingestion pipeline (`src/ingestion.py`)

The ChromaDB collection is external: `get` is the lookup oracle of
`_should_skip` (`.error` = any exception from `collection.get`), `pb` is
the combined embed-and-store oracle of `_process_and_store_batch`,
indexed by the number of prior batch calls so that transient provider
outages are expressible. -/

/-- `_generate_chunk_id`'s hash part:
`hashlib.md5(source.encode()).hexdigest()[:8]`. -/
def sourceHashChars (source : String) : List Char :=
  (md5HexChars source).take 8

/-- `IngestionPipeline._generate_chunk_id`. -/
def generateChunkId (chunk : DocumentChunk) : String :=
  String.mk (sourceHashChars chunk.metadata.source) ++ "_" ++
    toString chunk.metadata.chunk_index

/-- The id `_should_skip` looks up: the source's chunk 0. -/
def chunkZeroId (source : String) : String :=
  String.mk (sourceHashChars source) ++ "_0"

/-- `IngestionPipeline._should_skip` (also the body of
`should_skip_document` and `should_skip_by_metadata`). -/
def shouldSkip (get : String → Except Unit (Option MetaDict))
    (source : String) (modified_at : Option PyDateTime) : Bool :=
  match get (chunkZeroId source) with
  | .error _ => false
  | .ok none => false
  | .ok (some md) =>
    match md.lookup "ingested_at" with
    | none => false
    | some (.s v) =>
      match fromisoformat v with
      | none => false
      | some ing =>
        let ing := replaceUtcIfNaive ing
        match modified_at with
        | some m =>
          let m := replaceUtcIfNaive m
          if pyInstantMicros ing < pyInstantMicros m then false else true
        | none => true
    | some _ => false

/-- Loop state of `ingest_documents_incremental`: stats, the pending chunk
batch, the number of `_process_and_store_batch` calls made, and the
`processed` counter. -/
structure IncState where
  stats : IngestionStats
  batch : List DocumentChunk
  calls : Nat
  processed : Nat
deriving DecidableEq, Repr

/-- The per-document loop of `ingest_documents_incremental`.  The trailing
`rest.isEmpty` disjunct is Python's `i == total_docs`; a failing
`_process_and_store_batch` call inside the loop is caught by the
per-document `except` handler (which charges the current document and
keeps the unsaved batch). -/
def ingestIncrementalLoop (pb : Nat → List DocumentChunk → Except Unit Unit)
    (skipFn : Document → Bool) (split : String → Except Unit (List String))
    (now : PyDateTime) (skipUnchanged : Bool) (batchSize : Nat) :
    List Document → IncState → IncState
  | [], st => st
  | doc :: rest, st =>
    let st' :=
      if skipUnchanged && skipFn doc then
        { st with stats :=
            { st.stats with skipped_documents := st.stats.skipped_documents + 1 } }
      else
        let chunks := chunkDocument split now doc
        let st1 :=
          if chunks.isEmpty then
            { st with stats :=
                { st.stats with
                    failed_documents := st.stats.failed_documents + 1
                    failed_files := st.stats.failed_files ++ [doc.metadata.source] } }
          else
            { st with
                batch := st.batch ++ chunks
                stats :=
                  { st.stats with total_documents := st.stats.total_documents + 1 }
                processed := st.processed + 1 }
        if batchSize * 5 ≤ st1.batch.length ∨ rest.isEmpty then
          if st1.batch.isEmpty then st1
          else
            match pb st1.calls st1.batch with
            | .ok _ =>
              { st1 with
                  stats :=
                    { st1.stats with
                        total_chunks := st1.stats.total_chunks + st1.batch.length }
                  batch := []
                  calls := st1.calls + 1 }
            | .error _ =>
              { st1 with
                  stats :=
                    { st1.stats with
                        failed_documents := st1.stats.failed_documents + 1
                        failed_files := st1.stats.failed_files ++ [doc.metadata.source] }
                  calls := st1.calls + 1 }
        else st1
    ingestIncrementalLoop pb skipFn split now skipUnchanged batchSize rest st'

/-- `IngestionPipeline.ingest_documents_incremental`.  The result is
`.error` exactly when the post-loop flush of a non-empty leftover batch
raises (that exception is not caught and the local stats object is lost
with it). -/
def ingestDocumentsIncremental (pb : Nat → List DocumentChunk → Except Unit Unit)
    (skipFn : Document → Bool) (split : String → Except Unit (List String))
    (now : PyDateTime) (documents : List Document) (skipUnchanged : Bool)
    (batchSize : Nat) : Except Unit IngestionStats :=
  if documents.isEmpty then .ok {}
  else
    let st := ingestIncrementalLoop pb skipFn split now skipUnchanged batchSize
      documents ⟨{}, [], 0, 0⟩
    if st.batch.isEmpty then .ok st.stats
    else
      match pb st.calls st.batch with
      | .ok _ =>
        .ok { st.stats with
                total_chunks := st.stats.total_chunks + st.batch.length }
      | .error e => .error e

/-- The per-document body of `ingest_documents`'s accumulation loop:
collect the document's chunks, or record the document as failed when
chunking produced nothing. -/
def ingestStep (split : String → Except Unit (List String)) (now : PyDateTime)
    (p : List DocumentChunk × IngestionStats) (doc : Document) :
    List DocumentChunk × IngestionStats :=
  let chunks := chunkDocument split now doc
  if chunks.isEmpty then
    (p.1, { p.2 with
              failed_documents := p.2.failed_documents + 1
              failed_files := p.2.failed_files ++ [doc.metadata.source] })
  else
    (p.1 ++ chunks,
     { p.2 with total_documents := p.2.total_documents + 1 })

/-- `IngestionPipeline.ingest_documents` (legacy batch method): all
exceptions of the embed and store phases are caught, so it always returns
its stats. -/
def ingestDocuments (embedAll : List DocumentChunk → Except Unit (List DocumentChunk))
    (store : List DocumentChunk → Except Unit Unit)
    (split : String → Except Unit (List String)) (now : PyDateTime)
    (documents : List Document) : IngestionStats :=
  if documents.isEmpty then {}
  else
    let p := documents.foldl (ingestStep split now) ([], {})
    if p.1.isEmpty then p.2
    else
      match embedAll p.1 with
      | .error _ => p.2
      | .ok embedded =>
        let stats := { p.2 with total_chunks := embedded.length }
        match store embedded with
        | .error _ => stats
        | .ok _ => stats

/-! ## Retrieval (`src/retrieval.py`) -/

/-- The distance-to-score conversion of `RetrievalService.query`:
`score = 1.0 / (1.0 + distance)` (floats modelled as exact rationals). -/
def distanceToScore (d : ℚ) : ℚ := 1 / (1 + d)

/-! ## Sample values used to instantiate theorems on concrete inputs -/

/-- A concrete `datetime.now()` value. -/
def sampleNow : PyDateTime := ⟨2025, 10, 31, 12, 0, 0, 0, none⟩

/-- A concrete chunk metadata value. -/
def sampleMeta (src : String) (idx total : Nat) : ChunkMetadata :=
  { source := src, source_type := .local, chunk_index := idx,
    total_chunks := total, ingested_at := sampleNow }

/-- A concrete chunk. -/
def sampleChunk (src : String) (idx : Nat) (content : String) : DocumentChunk :=
  { content := content, metadata := sampleMeta src idx 1 }

/-- A concrete document. -/
def sampleDoc : Document :=
  { content := "hello", metadata := { source := "/doc.txt", source_type := .local } }

/-- A concrete chunk metadata value with every optional field populated. -/
def sampleMetaFull : ChunkMetadata :=
  { source := "/doc.txt", source_type := .gdrive, chunk_index := 2,
    total_chunks := 5, title := some "T", author := some "A",
    created_at := some ⟨2024, 1, 2, 3, 4, 5, 6, some 120⟩,
    modified_at := some ⟨2025, 6, 7, 8, 9, 10, 0, some (-330)⟩,
    file_type := some "txt", url := some "http://x", ingested_at := sampleNow }

/-! ## Helper lemmas -/

theorem digitVal_digitChar : ∀ d, d < 10 → digitVal (digitChar d) = some d := by
  decide

theorem padDigits_length (k n : Nat) : (padDigits k n).length = k := by
  induction k generalizing n with
  | zero => rfl
  | succ k ih => simp [padDigits, ih]

theorem parseDigitsAux_append (l₁ l₂ : List Char) (acc : Nat) :
    parseDigitsAux (l₁ ++ l₂) acc =
      match parseDigitsAux l₁ acc with
      | none => none
      | some a => parseDigitsAux l₂ a := by
  induction l₁ generalizing acc with
  | nil => rfl
  | cons c cs ih =>
    simp only [List.cons_append, parseDigitsAux]
    cases digitVal c with
    | none => rfl
    | some d => exact ih _

theorem parseDigitsAux_padDigits (k : Nat) :
    ∀ n acc, n < 10 ^ k →
      parseDigitsAux (padDigits k n) acc = some (acc * 10 ^ k + n) := by
  induction k with
  | zero =>
    intro n acc h
    interval_cases n
    simp [padDigits, parseDigitsAux]
  | succ k ih =>
    intro n acc h
    have hdiv : n / 10 < 10 ^ k := by
      have hdvd : (10 : ℕ) ∣ 10 ^ (k + 1) := ⟨10 ^ k, by rw [pow_succ, mul_comm]⟩
      have := Nat.div_lt_div_of_lt_of_dvd hdvd h
      simpa [pow_succ, Nat.mul_div_cancel] using this
    rw [padDigits, parseDigitsAux_append, ih (n / 10) acc hdiv]
    have hmod : n % 10 < 10 := Nat.mod_lt _ (by norm_num)
    simp only [parseDigitsAux, digitVal_digitChar _ hmod]
    congr 1
    have hexp : acc * 10 ^ (k + 1) = 10 * (acc * 10 ^ k) := by ring
    omega

theorem parseFixed_padDigits (k n : Nat) (rest : List Char) (h : n < 10 ^ k) :
    parseFixed k (padDigits k n ++ rest) = some (n, rest) := by
  have hlen : (padDigits k n).length = k := padDigits_length k n
  have htake : (padDigits k n ++ rest).take k = padDigits k n :=
    List.take_left' hlen
  have hdrop : (padDigits k n ++ rest).drop k = rest :=
    List.drop_left' hlen
  have hlen2 : k ≤ (padDigits k n ++ rest).length := by
    simp [hlen]
  rw [parseFixed, if_pos hlen2, htake, hdrop,
    parseDigitsAux_padDigits k n 0 h]
  simp

theorem parseFixed_padDigits_nil (k n : Nat) (h : n < 10 ^ k) :
    parseFixed k (padDigits k n) = some (n, []) := by
  simpa using parseFixed_padDigits k n [] h

theorem parseTz_tzChars (o : Option Int) (h : tzOk o) :
    parseTz (tzChars o) = some o := by
  cases o with
  | none => rfl
  | some o =>
    have hb : o.natAbs < 1440 := h
    have h60 : o.natAbs / 60 < 100 := by omega
    have hm60 : o.natAbs % 60 < 100 := by omega
    have htail : parseTzTail
        (padDigits 2 (o.natAbs / 60) ++ (':' :: padDigits 2 (o.natAbs % 60))) =
        some o.natAbs := by
      rw [parseTzTail, parseFixed_padDigits 2 _ _ (by simpa using h60)]
      simp only [Option.bind, expectChar, eq_self_iff_true, if_true]
      rw [parseFixed_padDigits_nil 2 _ (by simpa using hm60)]
      simp only [Option.bind]
      simp
      omega
    by_cases hpos : 0 ≤ o
    · simp only [tzChars, if_pos hpos, parseTz, htail]
      simp [Int.natAbs_of_nonneg hpos]
    · simp only [tzChars, if_neg hpos, parseTz, htail]
      have habs : ((o.natAbs : Int)) = -o := Int.ofNat_natAbs_of_nonpos (by omega)
      simp [habs]

theorem parseFrac_fracChars (us : Nat) (o : Option Int) (h : us < 1000000) :
    parseFrac (fracChars us ++ tzChars o) = some (us, tzChars o) := by
  by_cases hus : us = 0
  · subst hus
    rw [fracChars, if_pos rfl, List.nil_append]
    cases o with
    | none => rfl
    | some o => by_cases hpos : 0 ≤ o <;> simp [tzChars, parseFrac, hpos]
  · rw [fracChars, if_neg hus, List.cons_append, parseFrac, if_pos rfl]
    exact parseFixed_padDigits 6 _ _ (by omega)

/-- Round trip: parsing the textual form written by `isoformat` recovers
the original datetime exactly. -/
theorem fromisoformat_isoformat (dt : PyDateTime) (h : dt.Valid) :
    fromisoformat (isoformat dt) = some dt := by
  obtain ⟨h1, h2, h3, h4, h5, h6, h7, h8, h9, h10, h11⟩ := h
  show parseDateTimeChars (isoChars dt) = some dt
  rw [isoChars, parseDateTimeChars,
    parseFixed_padDigits 4 _ _ (by omega)]
  simp only [Option.bind, expectChar, eq_self_iff_true, if_true]
  rw [parseFixed_padDigits 2 _ _ (by omega)]
  simp only [Option.bind, expectChar, eq_self_iff_true, if_true]
  rw [parseFixed_padDigits 2 _ _ (by omega)]
  simp only [Option.bind, expectChar, eq_self_iff_true, if_true]
  rw [parseFixed_padDigits 2 _ _ (by omega)]
  simp only [Option.bind, expectChar, eq_self_iff_true, if_true]
  rw [parseFixed_padDigits 2 _ _ (by omega)]
  simp only [Option.bind, expectChar, eq_self_iff_true, if_true]
  rw [parseFixed_padDigits 2 _ _ (by omega)]
  simp only [Option.bind]
  rw [parseFrac_fracChars dt.microsecond dt.tzOffsetMinutes h10]
  simp only [Option.bind]
  rw [parseTz_tzChars dt.tzOffsetMinutes h11]
  rfl

theorem md5_hexdigest_empty :
    md5HexChars "" = "d41d8cd98f00b204e9800998ecf8427e".data := by rfl

theorem md5_hexdigest_abc :
    md5HexChars "abc" = "900150983cd24fb0d6963f7d28e17f72".data := by rfl

/-! ## Claim C5: distance-to-score conversion -/

/-- C5: the retrieval service's distance-to-score conversion computes
`score = 1 / (1 + d)` for every distance `d ≥ 0`; the score lies in
`(0, 1]`, is strictly decreasing as the distance increases, and equals
exactly `1` at `d = 0`. -/
theorem c5_distance_to_score (d d2 : ℚ) (hd : 0 ≤ d) (hlt : d < d2) :
    0 < distanceToScore d ∧ distanceToScore d ≤ 1 ∧
    distanceToScore 0 = 1 ∧ distanceToScore d2 < distanceToScore d := by
  have h1 : (0 : ℚ) < 1 + d := by linarith
  have h2 : (0 : ℚ) < 1 + d2 := by linarith
  refine ⟨div_pos one_pos h1, ?_, by norm_num [distanceToScore], ?_⟩
  · rw [distanceToScore, div_le_one h1]
    linarith
  · rw [distanceToScore, distanceToScore]
    apply one_div_lt_one_div_of_lt h1
    linarith

/-- Witness for C5 at `d = 0`, `d2 = 1`. -/
theorem c5_distance_to_score_witness :
    0 < distanceToScore 0 ∧ distanceToScore 0 ≤ 1 ∧
    distanceToScore 0 = 1 ∧ distanceToScore 1 < distanceToScore 0 :=
  c5_distance_to_score 0 1 (by norm_num) (by norm_num)

/-! ## Claim C8: chunker constructor constraints -/

/-- C8 counterexample: with `chunk_size_tokens = 10` the claim demands
that `overlap_tokens = 10` be rejected or clamped, but construction
succeeds and configures the splitter with overlap equal to the chunk size
(40 = 40 in character units); and the claim demands `overlap_tokens = 0`
be accepted, but Python's falsy `or`-fallback replaces it with the
configured default 50, which the underlying splitter then rejects
against size 10. -/
theorem c8_overlap_counterexample :
    mkDocumentChunker (some 10) (some 10) {} =
      Except.ok ⟨10, 10, 40, 40⟩ ∧
    (mkDocumentChunker (some 10) (some 0) {}).isOk = false := by
  constructor <;> rfl

/-- C8 (amended): with a positive size and a positive explicit overlap,
construction fails (the underlying splitter's `ValueError`) exactly when
the overlap strictly exceeds the chunk size; overlap equal to the chunk
size is accepted silently and unclamped; and a passed overlap of `0` is
replaced by the configured default (Python `or` fallback). -/
theorem c8_overlap_validation (settings : ChunkerSettings) (s o : Nat)
    (hs : 0 < s) (ho : 0 < o) :
    (s < o → (mkDocumentChunker (some s) (some o) settings).isOk = false) ∧
    (o ≤ s → mkDocumentChunker (some s) (some o) settings =
      Except.ok ⟨s, o, s * 4, o * 4⟩) ∧
    mkDocumentChunker (some s) (some 0) settings =
      mkDocumentChunker (some s) none settings := by
  have hs' : s ≠ 0 := hs.ne'
  have ho' : o ≠ 0 := ho.ne'
  refine ⟨?_, ?_, ?_⟩
  · intro hlt
    simp [mkDocumentChunker, hs', ho', show s * 4 < o * 4 by omega, Except.isOk, Except.toBool]
  · intro hle
    simp [mkDocumentChunker, hs', ho', show ¬s * 4 < o * 4 by omega]
  · simp [mkDocumentChunker, hs']

/-- Witness for C8 (amended) at `s = 10`, `o = 5`. -/
theorem c8_overlap_validation_witness :
    mkDocumentChunker (some 10) (some 5) {} = Except.ok ⟨10, 5, 40, 20⟩ :=
  (c8_overlap_validation {} 10 5 (by norm_num) (by norm_num)).2.1 (by norm_num)

/-! ## Claim C3: the change-detection gate -/

/-- C3: `_should_skip` decides from the stored metadata of the source's
chunk 0: no record → do not skip; record without `ingested_at` → do not
skip; unparsable or non-string `ingested_at` (malformed record) → do not
skip; stored record with `modified_at` strictly later than `ingested_at`
(both normalized to timezone-aware form) → do not skip; lookup error → do
not skip; every other case (in particular `modified_at ≤ ingested_at`, or
no `modified_at`) → skip. -/
theorem c3_should_skip (get : String → Except Unit (Option MetaDict))
    (source : String) (modified : Option PyDateTime) :
    (get (chunkZeroId source) = .error () →
      shouldSkip get source modified = false) ∧
    (get (chunkZeroId source) = .ok none →
      shouldSkip get source modified = false) ∧
    (∀ md, get (chunkZeroId source) = .ok (some md) →
      md.lookup "ingested_at" = none →
      shouldSkip get source modified = false) ∧
    (∀ md v, get (chunkZeroId source) = .ok (some md) →
      md.lookup "ingested_at" = some v → (∀ w, v ≠ MVal.s w) →
      shouldSkip get source modified = false) ∧
    (∀ md v, get (chunkZeroId source) = .ok (some md) →
      md.lookup "ingested_at" = some (.s v) → fromisoformat v = none →
      shouldSkip get source modified = false) ∧
    (∀ md v ing m, get (chunkZeroId source) = .ok (some md) →
      md.lookup "ingested_at" = some (.s v) → fromisoformat v = some ing →
      modified = some m →
      pyInstantMicros (replaceUtcIfNaive ing) <
        pyInstantMicros (replaceUtcIfNaive m) →
      shouldSkip get source modified = false) ∧
    (∀ md v ing, get (chunkZeroId source) = .ok (some md) →
      md.lookup "ingested_at" = some (.s v) → fromisoformat v = some ing →
      (∀ m, modified = some m →
        pyInstantMicros (replaceUtcIfNaive m) ≤
          pyInstantMicros (replaceUtcIfNaive ing)) →
      shouldSkip get source modified = true) := by
  refine ⟨?_, ?_, ?_, ?_, ?_, ?_, ?_⟩
  · intro h; simp [shouldSkip, h]
  · intro h; simp [shouldSkip, h]
  · intro md h hl; simp [shouldSkip, h, hl]
  · intro md v h hl hv
    rw [shouldSkip, h]
    cases v with
    | s w => exact absurd rfl (hv w)
    | i n => simp [hl]
    | null => simp [hl]
  · intro md v h hl hp; simp [shouldSkip, h, hl, hp]
  · intro md v ing m h hl hp hm hcmp
    simp [shouldSkip, h, hl, hp, hm, hcmp]
  · intro md v ing h hl hp hm
    rw [shouldSkip, h]
    simp only [hl, hp]
    cases hmod : modified with
    | none => rfl
    | some m =>
      have := hm m hmod
      simp [not_lt.mpr this]

/-- Witness for C3: a lookup error yields "do not skip". -/
theorem c3_should_skip_witness :
    shouldSkip (fun _ => .error ()) "/doc.txt" none = false :=
  (c3_should_skip (fun _ => .error ()) "/doc.txt" none).1 rfl

/-! ## Claim C1: deterministic chunk IDs -/

theorem wordLE_lt (w : Nat) : ∀ b ∈ wordLE w, b < 256 := by
  intro b hb
  simp [wordLE] at hb
  rcases hb with rfl | rfl | rfl | rfl <;> omega

theorem md5Bytes_length (msg : List Nat) : (md5Bytes msg).length = 16 := by
  simp only [md5Bytes]
  rcases h : (md5Split (md5Pad msg).length (md5Pad msg)).foldl md5Block
    (1732584193, 4023233417, 2562383102, 271733878) with ⟨a, b, c, d⟩
  simp [wordLE]

theorem md5Bytes_lt (msg : List Nat) : ∀ x ∈ md5Bytes msg, x < 256 := by
  simp only [md5Bytes]
  rcases h : (md5Split (md5Pad msg).length (md5Pad msg)).foldl md5Block
    (1732584193, 4023233417, 2562383102, 271733878) with ⟨a, b, c, d⟩
  intro x hx
  simp only [List.mem_append] at hx
  rcases hx with ((hx | hx) | hx) | hx <;> exact wordLE_lt _ _ hx

theorem hexChar_mem : ∀ n, n < 16 → hexChar n ∈ "0123456789abcdef".data := by
  decide

theorem flatten_byteHex_length (l : List Nat) :
    ((l.map byteHex).flatten).length = 2 * l.length := by
  induction l with
  | nil => rfl
  | cons b t ih => simp [byteHex, ih]; omega

theorem md5HexChars_length (s : String) : (md5HexChars s).length = 32 := by
  rw [md5HexChars, flatten_byteHex_length, md5Bytes_length]

theorem md5HexChars_hex (s : String) :
    ∀ c ∈ md5HexChars s, c ∈ "0123456789abcdef".data := by
  intro c hc
  rw [md5HexChars] at hc
  rcases List.mem_flatten.1 hc with ⟨l, hl, hcl⟩
  rcases List.mem_map.1 hl with ⟨b, hb, rfl⟩
  have hblt : b < 256 := md5Bytes_lt _ _ hb
  rcases hcl with _ | ⟨_, hcl⟩
  · exact hexChar_mem _ (by omega)
  · rcases hcl with _ | ⟨_, hcl⟩
    · exact hexChar_mem _ (by omega)
    · cases hcl

theorem chunkDocument_ids (split : String → Except Unit (List String))
    (now : PyDateTime) (doc : Document) :
    (chunkDocument split now doc).map generateChunkId =
      (List.range (chunkDocument split now doc).length).map
        fun i => String.mk (sourceHashChars doc.metadata.source) ++ "_" ++
          toString i := by
  rw [chunkDocument]
  by_cases h : (pyStrip doc.content).isEmpty = true
  · simp [h]
  · simp only [h, if_false, Bool.false_eq_true]
    cases hsp : split doc.content with
    | error e => simp
    | ok tcs =>
      cases tcs with
      | nil => simp
      | cons t ts =>
        simp only [List.map_map]
        have hcomp :
            (generateChunkId ∘ mkChunk doc.metadata (t :: ts).length now) =
            (fun i => String.mk (sourceHashChars doc.metadata.source) ++ "_" ++
              toString i) ∘ Prod.fst := by
          funext p
          rfl
        rw [hcomp, ← List.map_map, List.enum_map_fst]
        simp

theorem chunkDocument_length_time (split : String → Except Unit (List String))
    (doc : Document) (now1 now2 : PyDateTime) :
    (chunkDocument split now1 doc).length =
      (chunkDocument split now2 doc).length := by
  rw [chunkDocument, chunkDocument]
  by_cases h : (pyStrip doc.content).isEmpty = true
  · simp [h]
  · simp only [h, if_false, Bool.false_eq_true]
    cases hsp : split doc.content with
    | error e => rfl
    | ok tcs => cases tcs <;> simp

/-- C1: chunk IDs are deterministic functions of `(source, chunk_index)`
only: any two chunks agreeing on source and index get the same ID; two
chunkings of the same document with identical parameters (in particular at
different wall-clock times — the only run-dependent input) produce the
same ID sequence element for element; the ID is an 8-hex-character stable
hash prefix of the source, an underscore, and the decimal chunk index. -/
theorem c1_chunk_ids_deterministic :
    (∀ c c' : DocumentChunk, c.metadata.source = c'.metadata.source →
      c.metadata.chunk_index = c'.metadata.chunk_index →
      generateChunkId c = generateChunkId c') ∧
    (∀ (split : String → Except Unit (List String)) (now1 now2 : PyDateTime)
      (doc : Document),
      (chunkDocument split now1 doc).map generateChunkId =
        (chunkDocument split now2 doc).map generateChunkId) ∧
    (∀ source : String, (sourceHashChars source).length = 8 ∧
      ∀ ch ∈ sourceHashChars source, ch ∈ "0123456789abcdef".data) ∧
    (∀ c : DocumentChunk, generateChunkId c =
      String.mk (sourceHashChars c.metadata.source) ++ "_" ++
        toString c.metadata.chunk_index) := by
  refine ⟨?_, ?_, ?_, fun c => rfl⟩
  · intro c c' h1 h2
    rw [generateChunkId, generateChunkId, h1, h2]
  · intro split now1 now2 doc
    rw [chunkDocument_ids, chunkDocument_ids,
      chunkDocument_length_time split doc now1 now2]
  · intro source
    refine ⟨?_, ?_⟩
    · simp [sourceHashChars, List.length_take, md5HexChars_length]
    · intro ch hch
      exact md5HexChars_hex source ch (List.take_subset _ _ hch)

/-- Witness for C1: two chunks sharing `(source, chunk_index)` but with
different content get the same ID. -/
theorem c1_chunk_ids_deterministic_witness :
    generateChunkId (sampleChunk "/doc.txt" 3 "abc") =
      generateChunkId (sampleChunk "/doc.txt" 3 "different") :=
  c1_chunk_ids_deterministic.1 _ _ rfl rfl

/-! ## Claim C6: chunk index contiguity and stripped content -/

/-- C6: when chunking produces `k > 0` chunks, the `chunk_index` values
are exactly `0, 1, ..., k-1` in order, every chunk's `total_chunks` is
`k`, and each chunk's content is the corresponding split text stripped of
leading and trailing whitespace. -/
theorem c6_chunk_invariants (split : String → Except Unit (List String))
    (now : PyDateTime) (doc : Document)
    (h : chunkDocument split now doc ≠ []) :
    (chunkDocument split now doc).map (fun c => c.metadata.chunk_index) =
      List.range (chunkDocument split now doc).length ∧
    (∀ c ∈ chunkDocument split now doc,
      c.metadata.total_chunks = (chunkDocument split now doc).length) ∧
    ∃ tcs, split doc.content = .ok tcs ∧
      (chunkDocument split now doc).map (fun c => c.content) =
        tcs.map pyStrip := by
  by_cases hempty : (pyStrip doc.content).isEmpty = true
  · exact absurd (by simp [chunkDocument, hempty]) h
  · cases hsp : split doc.content with
    | error e => exact absurd (by simp [chunkDocument, hempty, hsp]) h
    | ok tcs =>
      cases tcs with
      | nil => exact absurd (by simp [chunkDocument, hempty, hsp]) h
      | cons t ts =>
        have hcd : chunkDocument split now doc =
            (t :: ts).enum.map (mkChunk doc.metadata (t :: ts).length now) := by
          simp [chunkDocument, hempty, hsp]
        rw [hcd]
        refine ⟨?_, ?_, ⟨t :: ts, rfl, ?_⟩⟩
        · rw [List.map_map,
            show ((fun c : DocumentChunk => c.metadata.chunk_index) ∘
                mkChunk doc.metadata (t :: ts).length now) = Prod.fst
              from funext fun p => rfl,
            List.enum_map_fst]
          simp
        · intro c hc
          rcases List.mem_map.1 hc with ⟨p, hp, rfl⟩
          simp [mkChunk]
        · rw [List.map_map,
            show ((fun c : DocumentChunk => c.content) ∘
                mkChunk doc.metadata (t :: ts).length now) = pyStrip ∘ Prod.snd
              from funext fun p => rfl,
            ← List.map_map, List.enum_map_snd]

/-- Witness for C6 on a concrete two-piece split. -/
theorem c6_chunk_invariants_witness :
    (chunkDocument (fun _ => .ok ["a", "b"]) sampleNow sampleDoc).map
        (fun c => c.metadata.chunk_index) =
      List.range
        (chunkDocument (fun _ => .ok ["a", "b"]) sampleNow sampleDoc).length :=
  (c6_chunk_invariants (fun _ => .ok ["a", "b"]) sampleNow sampleDoc
    (by decide)).1

/-! ## Claim C4: embedding batching -/

theorem makeBatchesGo_flatten (tok : String → Nat) (rest : List DocumentChunk) :
    ∀ (cur : List DocumentChunk) (t : Nat),
      (makeBatchesGo tok rest cur t).flatten = cur ++ rest := by
  induction rest with
  | nil =>
    intro cur t
    simp only [makeBatchesGo]
    by_cases h : cur.isEmpty = true
    · rw [if_pos h]
      simp [List.isEmpty_iff.1 h]
    · rw [if_neg h]
      simp
  | cons c rest ih =>
    intro cur t
    simp only [makeBatchesGo]
    by_cases h : MAX_TOKENS_PER_REQUEST < t + tok c.content ∧ cur ≠ []
    · rw [if_pos h]
      simp [ih]
    · rw [if_neg h, ih]
      simp

theorem makeBatchesGo_inv (tok : String → Nat) (rest : List DocumentChunk) :
    ∀ (cur : List DocumentChunk) (t : Nat),
      ((cur.map fun c => tok c.content).sum ≤ MAX_TOKENS_PER_REQUEST ∨
        cur.length ≤ 1) →
      t = (cur.map fun c => tok c.content).sum →
      ∀ b ∈ makeBatchesGo tok rest cur t,
        b ≠ [] ∧ ((b.map fun c => tok c.content).sum ≤ MAX_TOKENS_PER_REQUEST ∨
          b.length = 1) := by
  induction rest with
  | nil =>
    intro cur t hinv ht b hb
    simp only [makeBatchesGo] at hb
    by_cases h : cur.isEmpty = true
    · simp [h] at hb
    · rw [if_neg h] at hb
      rcases List.mem_singleton.1 hb with rfl
      have hne : b ≠ [] := fun hbe => h (by simp [hbe])
      refine ⟨hne, ?_⟩
      rcases hinv with hinv | hinv
      · exact Or.inl hinv
      · right
        have : 0 < b.length := List.length_pos.2 hne
        omega
  | cons c rest ih =>
    intro cur t hinv ht b hb
    simp only [makeBatchesGo] at hb
    by_cases h : MAX_TOKENS_PER_REQUEST < t + tok c.content ∧ cur ≠ []
    · rw [if_pos h] at hb
      rcases List.mem_cons.1 hb with rfl | hb
      · refine ⟨h.2, ?_⟩
        rcases hinv with hinv | hinv
        · exact Or.inl hinv
        · right
          have : 0 < b.length := List.length_pos.2 h.2
          omega
      · exact ih [c] (tok c.content) (Or.inr (by simp)) (by simp) b hb
    · rw [if_neg h] at hb
      refine ih (cur ++ [c]) (t + tok c.content) ?_ (by simp [ht]) b hb
      rcases not_and_or.1 h with h1 | h2
      · left
        have hle : t + tok c.content ≤ MAX_TOKENS_PER_REQUEST := not_lt.1 h1
        simp only [List.map_append, List.sum_append, List.map_cons,
          List.sum_cons, List.map_nil, List.sum_nil]
        omega
      · have hcur : cur = [] := not_not.1 h2
        subst hcur
        exact Or.inr (by simp)

theorem makeBatches_flatten (tok : String → Nat) (chunks : List DocumentChunk) :
    (makeBatches tok chunks).flatten = chunks := by
  simpa [makeBatches] using makeBatchesGo_flatten tok chunks [] 0

theorem makeBatches_inv (tok : String → Nat) (chunks : List DocumentChunk) :
    ∀ b ∈ makeBatches tok chunks,
      b ≠ [] ∧ ((b.map fun c => tok c.content).sum ≤ MAX_TOKENS_PER_REQUEST ∨
        b.length = 1) :=
  makeBatchesGo_inv tok chunks [] 0 (Or.inl (by simp)) (by simp)

/-- C4 counterexample: a single chunk whose own token count exceeds the
ceiling has a summed token count over the ceiling, yet exactly one
underlying embedding call is made — refuting the claim's "more than one
underlying embedding call" for that input. -/
theorem c4_batching_counterexample :
    MAX_TOKENS_PER_REQUEST <
      (([sampleChunk "/doc.txt" 0 "x"].map
        fun c => (fun _ : String => 300001) c.content).sum) ∧
    embedCallCount (fun _ : String => 300001) [sampleChunk "/doc.txt" 0 "x"] = 1 := by
  exact ⟨by decide, rfl⟩

/-- C4 (amended): `embed_chunks` returns exactly the input chunks in
original order with every embedding populated; an empty input makes zero
calls; when the summed token count exceeds the ceiling **and there are at
least two chunks**, more than one underlying call is made (a single
oversized chunk is sent as one call); batches are formed greedily — every
batch is non-empty and is either within the ceiling or a singleton — and a
chunk whose own token count exceeds the ceiling forms its own batch. -/
theorem c4_embed_chunks_batching (E : String → List ℚ) (tok : String → Nat) :
    (∀ chunks, embedChunks E tok chunks = chunks.map (setEmbedding E)) ∧
    (embedChunks E tok [] = [] ∧ embedCallCount tok [] = 0) ∧
    (∀ chunks : List DocumentChunk, 2 ≤ chunks.length →
      MAX_TOKENS_PER_REQUEST < (chunks.map fun c => tok c.content).sum →
      2 ≤ embedCallCount tok chunks) ∧
    (∀ chunks b, b ∈ makeBatches tok chunks →
      b ≠ [] ∧ ((b.map fun c => tok c.content).sum ≤ MAX_TOKENS_PER_REQUEST ∨
        b.length = 1)) ∧
    (∀ chunks b c, b ∈ makeBatches tok chunks → c ∈ b →
      MAX_TOKENS_PER_REQUEST < tok c.content → b = [c]) := by
  refine ⟨?_, ⟨rfl, rfl⟩, ?_, makeBatches_inv tok, ?_⟩
  · intro chunks
    simp only [embedChunks]
    by_cases he : chunks.isEmpty = true
    · simp [List.isEmpty_iff.1 he]
    · rw [if_neg he]
      by_cases htot :
          (chunks.map fun c => tok c.content).sum ≤ MAX_TOKENS_PER_REQUEST
      · rw [if_pos htot]
      · rw [if_neg htot]
        conv_rhs => rw [← makeBatches_flatten tok chunks]
        rw [List.map_flatten]
  · intro chunks h2 hsum
    have hne : chunks.isEmpty ≠ true := by
      cases chunks with
      | nil => simp at h2
      | cons a l => simp
    by_contra hlt
    push_neg at hlt
    rw [embedCallCount, if_neg hne, if_neg (not_le.2 hsum)] at hlt
    interval_cases hn : (makeBatches tok chunks).length
    · have : (makeBatches tok chunks).flatten = [] := by
        rw [List.length_eq_zero.1 hn]
        rfl
      rw [makeBatches_flatten] at this
      subst this
      simp at h2
    · rcases List.length_eq_one.1 hn with ⟨b, hb⟩
      have hflat : b = chunks := by
        have := makeBatches_flatten tok chunks
        rw [hb] at this
        simpa using this
      have hinv := (makeBatches_inv tok chunks b (by simp [hb])).2
      rcases hinv with hinv | hinv
      · rw [hflat] at hinv
        omega
      · rw [hflat] at hinv
        omega
  · intro chunks b c hb hc htok
    have hinv := (makeBatches_inv tok chunks b hb).2
    have hsum : tok c.content ≤ (b.map fun c => tok c.content).sum :=
      List.single_le_sum (fun x _ => Nat.zero_le x) _
        (List.mem_map_of_mem _ hc)
    rcases hinv with hinv | hinv
    · omega
    · rcases List.length_eq_one.1 hinv with ⟨a, rfl⟩
      rcases List.mem_singleton.1 hc with rfl
      rfl

/-- Witness for C4 (amended): two chunks of 200000 tokens each exceed the
ceiling together and force at least two calls. -/
theorem c4_embed_chunks_batching_witness :
    2 ≤ embedCallCount (fun _ : String => 200000)
      [sampleChunk "/a" 0 "x", sampleChunk "/a" 1 "y"] :=
  (c4_embed_chunks_batching (fun _ => ([] : List ℚ))
    (fun _ : String => 200000)).2.2.1
    [sampleChunk "/a" 0 "x", sampleChunk "/a" 1 "y"] (by decide) (by decide)

/-! ## Claim C7: per-document failure containment in `ingest_documents` -/

theorem ingestStep_foldl (split : String → Except Unit (List String))
    (now : PyDateTime) (docs : List Document) :
    ∀ p : List DocumentChunk × IngestionStats,
      (docs.foldl (ingestStep split now) p).2.total_documents =
        p.2.total_documents +
          (docs.filter fun d => !(chunkDocument split now d).isEmpty).length ∧
      (docs.foldl (ingestStep split now) p).2.failed_documents =
        p.2.failed_documents +
          (docs.filter fun d => (chunkDocument split now d).isEmpty).length ∧
      (docs.foldl (ingestStep split now) p).2.failed_files =
        p.2.failed_files ++
          ((docs.filter fun d => (chunkDocument split now d).isEmpty).map
            fun d => d.metadata.source) ∧
      (docs.foldl (ingestStep split now) p).2.skipped_documents =
        p.2.skipped_documents := by
  induction docs with
  | nil => intro p; simp
  | cons d rest ih =>
    intro p
    rw [List.foldl_cons]
    obtain ⟨h1, h2, h3, h4⟩ := ih (ingestStep split now p d)
    rw [h1, h2, h3, h4]
    by_cases h : (chunkDocument split now d).isEmpty = true
    · refine ⟨?_, ?_, ?_, ?_⟩ <;>
        simp [ingestStep, h, List.filter_cons] <;> omega
    · refine ⟨?_, ?_, ?_, ?_⟩ <;>
        simp [ingestStep, h, List.filter_cons] <;> omega

theorem ingestDocuments_counters
    (embedAll : List DocumentChunk → Except Unit (List DocumentChunk))
    (store : List DocumentChunk → Except Unit Unit)
    (split : String → Except Unit (List String)) (now : PyDateTime)
    (docs : List Document) :
    (ingestDocuments embedAll store split now docs).total_documents =
      (docs.filter fun d => !(chunkDocument split now d).isEmpty).length ∧
    (ingestDocuments embedAll store split now docs).failed_documents =
      (docs.filter fun d => (chunkDocument split now d).isEmpty).length ∧
    (ingestDocuments embedAll store split now docs).failed_files =
      (docs.filter fun d => (chunkDocument split now d).isEmpty).map
        (fun d => d.metadata.source) ∧
    (ingestDocuments embedAll store split now docs).skipped_documents = 0 := by
  obtain ⟨h1, h2, h3, h4⟩ := ingestStep_foldl split now docs ([], {})
  have hcounters :
      (ingestDocuments embedAll store split now docs).total_documents =
        (docs.foldl (ingestStep split now) ([], {})).2.total_documents ∧
      (ingestDocuments embedAll store split now docs).failed_documents =
        (docs.foldl (ingestStep split now) ([], {})).2.failed_documents ∧
      (ingestDocuments embedAll store split now docs).failed_files =
        (docs.foldl (ingestStep split now) ([], {})).2.failed_files ∧
      (ingestDocuments embedAll store split now docs).skipped_documents =
        (docs.foldl (ingestStep split now) ([], {})).2.skipped_documents := by
    by_cases hd : docs.isEmpty = true
    · rw [List.isEmpty_iff.1 hd]
      exact ⟨rfl, rfl, rfl, rfl⟩
    · simp only [ingestDocuments, if_neg hd]
      by_cases hc : (docs.foldl (ingestStep split now) ([], {})).1.isEmpty = true
      · simp [hc]
      · simp only [hc, if_false, Bool.false_eq_true]
        refine ⟨?_, ?_, ?_, ?_⟩ <;>
          first
          | (split
             · rfl
             · split <;> rfl)
  obtain ⟨g1, g2, g3, g4⟩ := hcounters
  rw [g1, g2, g3, g4, h1, h2, h3, h4]
  simp

/-- C7: a per-document failure does not abort a run of
`ingest_documents`: the run is a total function of its inputs (all
exceptions are caught); exactly the documents whose chunking produced no
chunks (in particular, those on which the splitter raised) are counted in
`failed_documents` with their sources appended to `failed_files` in input
order, while every other document is counted in `total_documents`; so for
3 documents with the 2nd failing, `total_documents = 2` and
`failed_documents = 1` with the 2nd source in `failed_files`. -/
theorem c7_per_document_failure_containment
    (embedAll : List DocumentChunk → Except Unit (List DocumentChunk))
    (store : List DocumentChunk → Except Unit Unit)
    (split : String → Except Unit (List String)) (now : PyDateTime)
    (docs : List Document) :
    (ingestDocuments embedAll store split now docs).total_documents =
      (docs.filter fun d => !(chunkDocument split now d).isEmpty).length ∧
    (ingestDocuments embedAll store split now docs).failed_documents =
      (docs.filter fun d => (chunkDocument split now d).isEmpty).length ∧
    (ingestDocuments embedAll store split now docs).failed_files =
      (docs.filter fun d => (chunkDocument split now d).isEmpty).map
        (fun d => d.metadata.source) ∧
    (ingestDocuments embedAll store split now docs).skipped_documents = 0 :=
  ingestDocuments_counters embedAll store split now docs

/-! ## Claim C10: stats conservation -/

theorem filter_length_compl {α : Type} (p : α → Bool) (l : List α) :
    (l.filter p).length + (l.filter fun a => !(p a)).length = l.length := by
  induction l with
  | nil => rfl
  | cons a t ih =>
    by_cases h : p a = true <;> simp [List.filter_cons, h] <;> omega

theorem incLoop_conserve (pb : Nat → List DocumentChunk → Except Unit Unit)
    (skipFn : Document → Bool) (split : String → Except Unit (List String))
    (now : PyDateTime) (skipU : Bool) (batchSize : Nat)
    (hpb : ∀ k b, pb k b = .ok ()) (docs : List Document) :
    ∀ st : IncState,
      (ingestIncrementalLoop pb skipFn split now skipU batchSize docs
          st).stats.total_documents +
        (ingestIncrementalLoop pb skipFn split now skipU batchSize docs
          st).stats.skipped_documents +
        (ingestIncrementalLoop pb skipFn split now skipU batchSize docs
          st).stats.failed_documents =
      st.stats.total_documents + st.stats.skipped_documents +
        st.stats.failed_documents + docs.length := by
  induction docs with
  | nil => intro st; simp [ingestIncrementalLoop]
  | cons doc rest ih =>
    intro st
    rw [ingestIncrementalLoop, ih]
    by_cases hskip : (skipU && skipFn doc) = true
    · simp [hskip, List.length_cons]
      omega
    · simp only [hskip, if_false, Bool.false_eq_true]
      by_cases hch : (chunkDocument split now doc).isEmpty = true
      · simp only [hch, if_true]
        by_cases hfl : batchSize * 5 ≤ st.batch.length ∨ rest.isEmpty = true
        · rw [if_pos hfl]
          by_cases hb : st.batch.isEmpty = true
          · simp [hb, List.length_cons]
            omega
          · rw [if_neg hb, hpb]
            simp [List.length_cons]
            omega
        · rw [if_neg hfl]
          simp [List.length_cons]
          omega
      · simp only [hch, if_false, Bool.false_eq_true]
        by_cases hfl : batchSize * 5 ≤ (st.batch ++ chunkDocument split now doc).length ∨
            rest.isEmpty = true
        · rw [if_pos hfl]
          by_cases hb : (st.batch ++ chunkDocument split now doc).isEmpty = true
          · simp [hb, List.length_cons]
            omega
          · rw [if_neg hb, hpb]
            simp [List.length_cons]
            omega
        · rw [if_neg hfl]
          simp [List.length_cons]
          omega

/-- C10: over `n` input documents, when every embed-and-store batch call
succeeds, the incremental run returns normally and each document lands in
exactly one counter (`total + skipped + failed = n`); the legacy
non-incremental run satisfies the same conservation unconditionally, with
`skipped = 0`. -/
theorem c10_stats_conservation :
    (∀ (pb : Nat → List DocumentChunk → Except Unit Unit)
      (skipFn : Document → Bool) (split : String → Except Unit (List String))
      (now : PyDateTime) (docs : List Document) (skipU : Bool) (batchSize : Nat),
      (∀ k b, pb k b = .ok ()) →
      ∃ stats, ingestDocumentsIncremental pb skipFn split now docs skipU
          batchSize = .ok stats ∧
        stats.total_documents + stats.skipped_documents +
          stats.failed_documents = docs.length) ∧
    (∀ (embedAll : List DocumentChunk → Except Unit (List DocumentChunk))
      (store : List DocumentChunk → Except Unit Unit)
      (split : String → Except Unit (List String)) (now : PyDateTime)
      (docs : List Document),
      (ingestDocuments embedAll store split now docs).total_documents +
        (ingestDocuments embedAll store split now docs).skipped_documents +
        (ingestDocuments embedAll store split now docs).failed_documents =
          docs.length ∧
      (ingestDocuments embedAll store split now docs).skipped_documents = 0) := by
  constructor
  · intro pb skipFn split now docs skipU batchSize hpb
    have hsum := incLoop_conserve pb skipFn split now skipU batchSize hpb docs
      ⟨{}, [], 0, 0⟩
    simp only [ingestDocumentsIncremental]
    by_cases hd : docs.isEmpty = true
    · refine ⟨{}, by simp [hd], ?_⟩
      rw [List.isEmpty_iff.1 hd]
      rfl
    · rw [if_neg hd]
      by_cases hb : (ingestIncrementalLoop pb skipFn split now skipU batchSize
          docs ⟨{}, [], 0, 0⟩).batch.isEmpty = true
      · rw [if_pos hb]
        exact ⟨_, rfl, by simpa using hsum⟩
      · rw [if_neg hb, hpb]
        exact ⟨_, rfl, by simpa using hsum⟩
  · intro embedAll store split now docs
    obtain ⟨h1, h2, h3, h4⟩ :=
      ingestDocuments_counters embedAll store split now docs
    rw [h1, h2, h4]
    refine ⟨?_, rfl⟩
    simpa using
      filter_length_compl (fun d => !(chunkDocument split now d).isEmpty) docs

/-- Witness for C10 at a concrete one-document run with an
always-succeeding batch oracle. -/
theorem c10_stats_conservation_witness :
    ∃ stats, ingestDocumentsIncremental (fun _ _ => .ok ()) (fun _ => false)
        (fun _ => .ok ["hello"]) sampleNow [sampleDoc] true 10 = .ok stats ∧
      stats.total_documents + stats.skipped_documents +
        stats.failed_documents = 1 :=
  c10_stats_conservation.1 (fun _ _ => .ok ()) (fun _ => false)
    (fun _ => .ok ["hello"]) sampleNow [sampleDoc] true 10 (fun _ _ => rfl)

/-! ## Claim C2: batch failures during an incremental run -/

/-- C2: evaluation of `ingest_documents_incremental` at the failing
input.  One document chunks successfully, the embed-and-store oracle
fails on its first call and recovers afterwards.  Contrary to the claim
(and §7 of the spec), the batch failure *is* caught at the pipeline's
per-document granularity: the `except` handler of the per-document loop
absorbs it, charges the current document (`failed_documents = 1`, its
source in `failed_files` — even though its chunking succeeded, and it is
simultaneously counted in `total_documents`), and the run returns
normally.  When instead the post-loop flush of the retained batch fails
(second conjunct, an always-failing oracle), the exception propagates and
the accumulated stats object is lost entirely rather than preserved. -/
theorem c2_batch_failure_caught_per_document :
    ingestDocumentsIncremental (fun k _ => if k = 0 then .error () else .ok ())
        (fun _ => false) (fun _ => .ok ["hello"]) sampleNow [sampleDoc] true 10 =
      .ok { total_documents := 1, total_chunks := 1, skipped_documents := 0,
            failed_documents := 1, failed_files := ["/doc.txt"] } ∧
    ingestDocumentsIncremental (fun _ _ => .error ())
        (fun _ => false) (fun _ => .ok ["hello"]) sampleNow [sampleDoc] true 10 =
      .error () := by
  constructor <;> rfl

/-! ## Claim C9: metadata serialization round trip -/

theorem lookup_cons_self {β : Type} (k : String) (v : β)
    (rest : List (String × β)) :
    List.lookup k ((k, v) :: rest) = some v := by
  simp [List.lookup]

theorem lookup_cons_ne {β : Type} (k k' : String) (v : β)
    (rest : List (String × β)) (h : (k == k') = false) :
    List.lookup k ((k', v) :: rest) = List.lookup k rest := by
  simp [List.lookup, h]

theorem lookup_optS_ne (k k' : String) (v : Option String) (rest : MetaDict)
    (h : (k == k') = false) :
    List.lookup k (optEntryS k' v ++ rest) = List.lookup k rest := by
  cases v <;> simp [optEntryS, List.lookup, h]

theorem lookup_optDT_ne (k k' : String) (v : Option PyDateTime)
    (rest : MetaDict) (h : (k == k') = false) :
    List.lookup k (optEntryDT k' v ++ rest) = List.lookup k rest := by
  cases v <;> simp [optEntryDT, List.lookup, h]

theorem lookup_optS_self (k : String) (v : Option String) (rest : MetaDict) :
    List.lookup k (optEntryS k v ++ rest) =
      match v with
      | some w => some (.s w)
      | none => List.lookup k rest := by
  cases v <;> simp [optEntryS, List.lookup]

theorem lookup_optDT_self (k : String) (v : Option PyDateTime)
    (rest : MetaDict) :
    List.lookup k (optEntryDT k v ++ rest) =
      match v with
      | some dt => some (.s (isoformat dt))
      | none => List.lookup k rest := by
  cases v <;> simp [optEntryDT, List.lookup]

theorem optEntryS_no_null (k : String) (v : Option String) :
    ∀ kv ∈ optEntryS k v, kv.2 ≠ MVal.null := by
  cases v with
  | none => intro kv h; cases h
  | some w =>
    intro kv h
    rw [List.mem_singleton.1 h]
    simp

theorem optEntryDT_no_null (k : String) (v : Option PyDateTime) :
    ∀ kv ∈ optEntryDT k v, kv.2 ≠ MVal.null := by
  cases v with
  | none => intro kv h; cases h
  | some dt =>
    intro kv h
    rw [List.mem_singleton.1 h]
    simp

theorem fromValue_value (st : SourceType) :
    SourceType.fromValue st.value = some st := by
  cases st <;> rfl

theorem getStr_some (d : MetaDict) (k : String) (w : String)
    (h : List.lookup k d = some (.s w)) : getStr d k = some w := by
  rw [getStr, h]

theorem getNat_some (d : MetaDict) (k : String) (n : Nat)
    (h : List.lookup k d = some (.i n)) : getNat d k = some n := by
  rw [getNat, h]
  simp

theorem optStrField_of_lookup (d : MetaDict) (k : String) (v : Option String)
    (h : List.lookup k d = v.map fun w => MVal.s w) :
    optStrField d k = some v := by
  cases v with
  | none => simp only [Option.map_none'] at h; simp [optStrField, h]
  | some w => simp only [Option.map_some'] at h; simp [optStrField, h]

theorem optDTField_of_lookup (d : MetaDict) (k : String)
    (v : Option PyDateTime) (hv : ∀ dt ∈ v, dt.Valid)
    (h : List.lookup k d = v.map fun dt => MVal.s (isoformat dt)) :
    optDTField d k = some v := by
  cases v with
  | none => simp only [Option.map_none'] at h; simp [optDTField, h]
  | some dt =>
    simp only [Option.map_some'] at h
    simp [optDTField, h, fromisoformat_isoformat dt (hv dt (by simp))]

/-- C9: `to_dict` stores no explicit nulls and drops every `none`-valued
optional field; the four required fields, the enum's canonical string
value, and ISO-serialized timestamps are stored under their keys; and
`from_dict` is a left inverse of `to_dict`, restoring enum and timestamp
typing. -/
theorem c9_metadata_roundtrip (m : ChunkMetadata) (now : PyDateTime)
    (h1 : m.ingested_at.Valid)
    (h2 : ∀ dt ∈ m.created_at, dt.Valid)
    (h3 : ∀ dt ∈ m.modified_at, dt.Valid) :
    (∀ kv ∈ m.to_dict, kv.2 ≠ MVal.null) ∧
    m.to_dict.lookup "source" = some (.s m.source) ∧
    m.to_dict.lookup "source_type" = some (.s m.source_type.value) ∧
    m.to_dict.lookup "chunk_index" = some (.i m.chunk_index) ∧
    m.to_dict.lookup "total_chunks" = some (.i m.total_chunks) ∧
    m.to_dict.lookup "title" = (m.title.map fun w => MVal.s w) ∧
    m.to_dict.lookup "author" = (m.author.map fun w => MVal.s w) ∧
    m.to_dict.lookup "created_at" =
      (m.created_at.map fun dt => MVal.s (isoformat dt)) ∧
    m.to_dict.lookup "modified_at" =
      (m.modified_at.map fun dt => MVal.s (isoformat dt)) ∧
    m.to_dict.lookup "file_type" = (m.file_type.map fun w => MVal.s w) ∧
    m.to_dict.lookup "url" = (m.url.map fun w => MVal.s w) ∧
    m.to_dict.lookup "ingested_at" = some (.s (isoformat m.ingested_at)) ∧
    ChunkMetadata.from_dict now m.to_dict = some m := by
  have hsrc : List.lookup "source" m.to_dict = some (.s m.source) := by
    simp only [ChunkMetadata.to_dict, List.append_assoc, List.cons_append,
      List.nil_append]
    rw [lookup_cons_self]
  have hst : List.lookup "source_type" m.to_dict =
      some (.s m.source_type.value) := by
    simp only [ChunkMetadata.to_dict, List.append_assoc, List.cons_append,
      List.nil_append]
    rw [lookup_cons_ne _ _ _ _ (by rfl), lookup_cons_self]
  have hci : List.lookup "chunk_index" m.to_dict =
      some (.i m.chunk_index) := by
    simp only [ChunkMetadata.to_dict, List.append_assoc, List.cons_append,
      List.nil_append]
    rw [lookup_cons_ne _ _ _ _ (by rfl), lookup_cons_ne _ _ _ _ (by rfl),
      lookup_cons_self]
  have htc : List.lookup "total_chunks" m.to_dict =
      some (.i m.total_chunks) := by
    simp only [ChunkMetadata.to_dict, List.append_assoc, List.cons_append,
      List.nil_append]
    rw [lookup_cons_ne _ _ _ _ (by rfl), lookup_cons_ne _ _ _ _ (by rfl),
      lookup_cons_ne _ _ _ _ (by rfl), lookup_cons_self]
  have htitle : List.lookup "title" m.to_dict =
      (m.title.map fun w => MVal.s w) := by
    simp only [ChunkMetadata.to_dict, List.append_assoc, List.cons_append,
      List.nil_append]
    rw [lookup_cons_ne _ _ _ _ (by rfl), lookup_cons_ne _ _ _ _ (by rfl),
      lookup_cons_ne _ _ _ _ (by rfl), lookup_cons_ne _ _ _ _ (by rfl),
      lookup_optS_self]
    cases m.title with
    | some w => rfl
    | none =>
      rw [lookup_optS_ne _ _ _ _ (by rfl), lookup_optDT_ne _ _ _ _ (by rfl),
        lookup_optDT_ne _ _ _ _ (by rfl), lookup_optS_ne _ _ _ _ (by rfl),
        lookup_optS_ne _ _ _ _ (by rfl), lookup_cons_ne _ _ _ _ (by rfl)]
      rfl
  have hauthor : List.lookup "author" m.to_dict =
      (m.author.map fun w => MVal.s w) := by
    simp only [ChunkMetadata.to_dict, List.append_assoc, List.cons_append,
      List.nil_append]
    rw [lookup_cons_ne _ _ _ _ (by rfl), lookup_cons_ne _ _ _ _ (by rfl),
      lookup_cons_ne _ _ _ _ (by rfl), lookup_cons_ne _ _ _ _ (by rfl),
      lookup_optS_ne _ _ _ _ (by rfl), lookup_optS_self]
    cases m.author with
    | some w => rfl
    | none =>
      rw [lookup_optDT_ne _ _ _ _ (by rfl), lookup_optDT_ne _ _ _ _ (by rfl),
        lookup_optS_ne _ _ _ _ (by rfl), lookup_optS_ne _ _ _ _ (by rfl),
        lookup_cons_ne _ _ _ _ (by rfl)]
      rfl
  have hca : List.lookup "created_at" m.to_dict =
      (m.created_at.map fun dt => MVal.s (isoformat dt)) := by
    simp only [ChunkMetadata.to_dict, List.append_assoc, List.cons_append,
      List.nil_append]
    rw [lookup_cons_ne _ _ _ _ (by rfl), lookup_cons_ne _ _ _ _ (by rfl),
      lookup_cons_ne _ _ _ _ (by rfl), lookup_cons_ne _ _ _ _ (by rfl),
      lookup_optS_ne _ _ _ _ (by rfl), lookup_optS_ne _ _ _ _ (by rfl),
      lookup_optDT_self]
    cases m.created_at with
    | some dt => rfl
    | none =>
      rw [lookup_optDT_ne _ _ _ _ (by rfl), lookup_optS_ne _ _ _ _ (by rfl),
        lookup_optS_ne _ _ _ _ (by rfl), lookup_cons_ne _ _ _ _ (by rfl)]
      rfl
  have hma : List.lookup "modified_at" m.to_dict =
      (m.modified_at.map fun dt => MVal.s (isoformat dt)) := by
    simp only [ChunkMetadata.to_dict, List.append_assoc, List.cons_append,
      List.nil_append]
    rw [lookup_cons_ne _ _ _ _ (by rfl), lookup_cons_ne _ _ _ _ (by rfl),
      lookup_cons_ne _ _ _ _ (by rfl), lookup_cons_ne _ _ _ _ (by rfl),
      lookup_optS_ne _ _ _ _ (by rfl), lookup_optS_ne _ _ _ _ (by rfl),
      lookup_optDT_ne _ _ _ _ (by rfl), lookup_optDT_self]
    cases m.modified_at with
    | some dt => rfl
    | none =>
      rw [lookup_optS_ne _ _ _ _ (by rfl), lookup_optS_ne _ _ _ _ (by rfl),
        lookup_cons_ne _ _ _ _ (by rfl)]
      rfl
  have hft : List.lookup "file_type" m.to_dict =
      (m.file_type.map fun w => MVal.s w) := by
    simp only [ChunkMetadata.to_dict, List.append_assoc, List.cons_append,
      List.nil_append]
    rw [lookup_cons_ne _ _ _ _ (by rfl), lookup_cons_ne _ _ _ _ (by rfl),
      lookup_cons_ne _ _ _ _ (by rfl), lookup_cons_ne _ _ _ _ (by rfl),
      lookup_optS_ne _ _ _ _ (by rfl), lookup_optS_ne _ _ _ _ (by rfl),
      lookup_optDT_ne _ _ _ _ (by rfl), lookup_optDT_ne _ _ _ _ (by rfl),
      lookup_optS_self]
    cases m.file_type with
    | some w => rfl
    | none =>
      rw [lookup_optS_ne _ _ _ _ (by rfl), lookup_cons_ne _ _ _ _ (by rfl)]
      rfl
  have hurl : List.lookup "url" m.to_dict =
      (m.url.map fun w => MVal.s w) := by
    simp only [ChunkMetadata.to_dict, List.append_assoc, List.cons_append,
      List.nil_append]
    rw [lookup_cons_ne _ _ _ _ (by rfl), lookup_cons_ne _ _ _ _ (by rfl),
      lookup_cons_ne _ _ _ _ (by rfl), lookup_cons_ne _ _ _ _ (by rfl),
      lookup_optS_ne _ _ _ _ (by rfl), lookup_optS_ne _ _ _ _ (by rfl),
      lookup_optDT_ne _ _ _ _ (by rfl), lookup_optDT_ne _ _ _ _ (by rfl),
      lookup_optS_ne _ _ _ _ (by rfl), lookup_optS_self]
    cases m.url with
    | some w => rfl
    | none =>
      rw [lookup_cons_ne _ _ _ _ (by rfl)]
      rfl
  have hing : List.lookup "ingested_at" m.to_dict =
      some (.s (isoformat m.ingested_at)) := by
    simp only [ChunkMetadata.to_dict, List.append_assoc, List.cons_append,
      List.nil_append]
    rw [lookup_cons_ne _ _ _ _ (by rfl), lookup_cons_ne _ _ _ _ (by rfl),
      lookup_cons_ne _ _ _ _ (by rfl), lookup_cons_ne _ _ _ _ (by rfl),
      lookup_optS_ne _ _ _ _ (by rfl), lookup_optS_ne _ _ _ _ (by rfl),
      lookup_optDT_ne _ _ _ _ (by rfl), lookup_optDT_ne _ _ _ _ (by rfl),
      lookup_optS_ne _ _ _ _ (by rfl), lookup_optS_ne _ _ _ _ (by rfl),
      lookup_cons_self]
  have hnull : ∀ kv ∈ m.to_dict, kv.2 ≠ MVal.null := by
    intro kv hkv
    simp only [ChunkMetadata.to_dict, List.append_assoc, List.cons_append,
      List.nil_append] at hkv
    rcases List.mem_cons.1 hkv with rfl | hkv
    · simp
    rcases List.mem_cons.1 hkv with rfl | hkv
    · simp
    rcases List.mem_cons.1 hkv with rfl | hkv
    · simp
    rcases List.mem_cons.1 hkv with rfl | hkv
    · simp
    rcases List.mem_append.1 hkv with hkv' | hkv
    · exact optEntryS_no_null _ _ _ hkv'
    rcases List.mem_append.1 hkv with hkv' | hkv
    · exact optEntryS_no_null _ _ _ hkv'
    rcases List.mem_append.1 hkv with hkv' | hkv
    · exact optEntryDT_no_null _ _ _ hkv'
    rcases List.mem_append.1 hkv with hkv' | hkv
    · exact optEntryDT_no_null _ _ _ hkv'
    rcases List.mem_append.1 hkv with hkv' | hkv
    · exact optEntryS_no_null _ _ _ hkv'
    rcases List.mem_append.1 hkv with hkv' | hkv
    · exact optEntryS_no_null _ _ _ hkv'
    rw [List.mem_singleton.1 hkv]
    simp
  have hfrom : ChunkMetadata.from_dict now m.to_dict = some m := by
    simp only [ChunkMetadata.from_dict, getStr_some _ _ _ hsrc,
      getStr_some _ _ _ hst, fromValue_value, getNat_some _ _ _ hci,
      getNat_some _ _ _ htc, optStrField_of_lookup _ _ _ htitle,
      optStrField_of_lookup _ _ _ hauthor,
      optDTField_of_lookup _ _ _ h2 hca, optDTField_of_lookup _ _ _ h3 hma,
      optStrField_of_lookup _ _ _ hft, optStrField_of_lookup _ _ _ hurl,
      hing, fromisoformat_isoformat m.ingested_at h1, Option.bind, Option.map]
  exact ⟨hnull, hsrc, hst, hci, htc, htitle, hauthor, hca, hma, hft, hurl,
    hing, hfrom⟩

/-- Witness for C9 on a fully-populated concrete metadata value. -/
theorem c9_metadata_roundtrip_witness :
    ChunkMetadata.from_dict sampleNow sampleMetaFull.to_dict =
      some sampleMetaFull :=
  (c9_metadata_roundtrip sampleMetaFull sampleNow (by decide) (by decide)
    (by decide)).2.2.2.2.2.2.2.2.2.2.2.2

end Rag
